import Mathlib

/-
Verification of the C example driver c_example_lstypec from
src/c_examples/lstypec.c (libtypec-rs).

The driver calls the external libtypec-rs C API (declared in libtypec-rs.h,
which is not part of the sources under verification).  We embed the driver
shallowly: the library is an oracle (structure Env below) giving, for each
call, the status code it returns and the data it writes through its
out-parameters; the driver itself is a Lean function that threads the C
local variables through the exact sequence of calls of lstypec.c and
records every library call in an event trace.
-/

/-- Mirrors the C enum UcsiPdoType (only the two values used by lstypec.c). -/
inductive UcsiPdoType where
  | Source
  | Sink
deriving DecidableEq

/-- Mirrors the C enum UcsiPdoSourceCapabilitiesType (only the value used by lstypec.c). -/
inductive UcsiPdoSourceCapabilitiesType where
  | CurrentSupportedSourceCapabilities
deriving DecidableEq

/-- Mirrors the C enum UcsiGetAlternateModesRecipient (values used by lstypec.c). -/
inductive UcsiGetAlternateModesRecipient where
  | Connector
  | SopPrime
  | Sop
deriving DecidableEq

/-- Mirrors the C enum PdMessageRecipient (values used by lstypec.c). -/
inductive PdMessageRecipient where
  | SopPrime
  | Sop
deriving DecidableEq

/-- Mirrors the C enum PdMessageResponseType (only the value used by lstypec.c). -/
inductive PdMessageResponseType where
  | DiscoverIdentity
deriving DecidableEq

/-- Mirrors struct UcsiCapability as used by lstypec.c: the driver reads only
num_connectors and pd_version. -/
structure UcsiCapability where
  num_connectors : Nat
  pd_version : Nat
deriving DecidableEq

/-- Errno value ENOTSUP (Linux, errno.h).  The driver compares status codes
against -ENOTSUP. -/
def ENOTSUP : Int := 95

/-- Modelled from the spec: the numeric value of the OsBackends_Sysfs constant
of the C enum OsBackends from libtypec-rs.h, which is not under the sources
being verified.  No claim depends on the concrete value. -/
def OsBackends_Sysfs : Nat := 0

/-- A per-connector library query, identified by the function called and all
of its input arguments, exactly as lstypec.c passes them. -/
inductive Query where
  | getConnCapabilities (connector : Nat)
  | getPdos (connector : Nat) (partner : Bool) (offset : Nat) (nrPdos : Nat)
      (pdoType : UcsiPdoType) (capsType : UcsiPdoSourceCapabilitiesType)
      (pdVersion : Nat)
  | getCableProperties (connector : Nat)
  | getAlternateModes (recipient : UcsiGetAlternateModesRecipient) (connector : Nat)
  | getPdMessage (connector : Nat) (recipient : PdMessageRecipient)
      (responseType : PdMessageResponseType)
deriving DecidableEq

/-- Connector index argument of a per-connector query. -/
def Query.connector : Query → Nat
  | .getConnCapabilities c => c
  | .getPdos c _ _ _ _ _ _ => c
  | .getCableProperties c => c
  | .getAlternateModes _ c => c
  | .getPdMessage c _ _ => c

/-- PD version argument of a query: some v for getPdos, none otherwise. -/
def Query.pdVersionOf : Query → Option Nat
  | .getPdos _ _ _ _ _ _ v => some v
  | _ => none

/-- Whether a query is a libtypec_rs_get_pdos call. -/
def Query.isGetPdos : Query → Bool
  | .getPdos _ _ _ _ _ _ _ => true
  | _ => false

/-- Whether a query is a libtypec_rs_get_alternate_modes call. -/
def Query.isGetAltModes : Query → Bool
  | .getAlternateModes _ _ => true
  | _ => false

/-- Modelled from the spec: the external libtypec-rs library (its C API is
declared in libtypec-rs.h, outside the verified sources) acting as an oracle.
For the construction call it gives the status code and whether the returned
handle is null; for the capability call, the status code and the written
UcsiCapability; for each per-connector query, the status code and - for the
variable-length queries - the pointer (0 modelling NULL), element count and
total allocated size written through the out-parameters, and for
get_pd_message the written message payload (abstracted as a Nat). -/
structure Env where
  newRet : Int
  newHandleNull : Bool
  capRet : Int
  caps : UcsiCapability
  ret : Query → Int
  outPtr : Query → Nat
  outN : Query → Nat
  outSz : Query → Nat
  msgVal : Query → Nat

/-- Observable actions of the driver: every library call it performs. -/
inductive Event where
  | newSession (backendType : Nat)
  | getCapabilities
  | query (q : Query)
  | destroyPdos (ptr npdos memSz : Nat)
  | destroyAltModes (ptr nmodes memSz : Nat)
  | destroyPdMessage (msg : Nat)
  | destroySession
deriving DecidableEq

/-- Whether an event is a session-level call (new, get_capabilities, destroy)
rather than a per-connector query or buffer destroy. -/
def Event.isSessionEvent : Event → Bool
  | .newSession _ => true
  | .getCapabilities => true
  | .destroySession => true
  | _ => false

/-- Arguments of a libtypec_rs_destroy_pdos event, if any. -/
def Event.pdosDestroyArg : Event → Option (Nat × Nat × Nat)
  | .destroyPdos a b c => some (a, b, c)
  | _ => none

/-- Arguments of a libtypec_rs_destroy_alternate_modes event, if any. -/
def Event.altDestroyArg : Event → Option (Nat × Nat × Nat)
  | .destroyAltModes a b c => some (a, b, c)
  | _ => none

/-- The C locals out_pdos, out_npdos, out_mem_sz of c_example_lstypec
(lstypec.c lines 19-21); out_pdos is a pointer, 0 models NULL. -/
structure PdosVars where
  out_pdos : Nat
  out_npdos : Nat
  out_mem_sz : Nat
deriving DecidableEq

/-- Result of executing a straight-line piece of the driver: either fall
through to the next statement with the updated locals, or return early with
a status code (the C return ret paths), or die on a failed assert. -/
inductive StepRes where
  | next (st : PdosVars) (tr : List Event)
  | fatal (code : Int) (tr : List Event)
  | assertFailed (tr : List Event)
deriving DecidableEq

/-- Trace of library calls performed by a step, whatever its outcome. -/
def StepRes.trace : StepRes → List Event
  | .next _ tr => tr
  | .fatal _ tr => tr
  | .assertFailed tr => tr

/-- Sequencing of straight-line pieces: run the continuation only when the
first piece fell through, and concatenate the traces. -/
def StepRes.seq (a : StepRes) (f : PdosVars → StepRes) : StepRes :=
  match a with
  | .next st tr =>
    match f st with
    | .next st1 tr1 => .next st1 (tr ++ tr1)
    | .fatal r tr1 => .fatal r (tr ++ tr1)
    | .assertFailed tr1 => .assertFailed (tr ++ tr1)
  | .fatal r tr => .fatal r tr
  | .assertFailed tr => .assertFailed tr

/-- The shape of the C code around one library call in the connector loop of
lstypec.c.  Each call site follows one of these patterns:
 - connCap: lines 44-48, if (ret < 0) return ret;
 - pdos reset: lines 51-62, 65-76, 150-160, 165-175: on success assert the
   pointer and destroy; on any failure other than -ENOTSUP return; reset
   says whether the site first clears the three locals (lines 147-149 and
   162-164 for the two partner calls);
 - cable: lines 80-85, empty success branch, return unless -ENOTSUP;
 - alt: lines 91-99, 102-110, 126-134: destroy on success, return unless
   -ENOTSUP;
 - msgDestroy: lines 113-123: destroy the message on success, return unless
   -ENOTSUP;
 - msgPlain: lines 136-145: empty success branch, return unless -ENOTSUP. -/
inductive CallPattern where
  | connCap
  | pdos (reset : Bool)
  | cable
  | alt
  | msgDestroy
  | msgPlain
deriving DecidableEq

/-- Execute one library call site of the connector loop against the oracle,
following the C control flow of the corresponding pattern. -/
def execCall (env : Env) (st : PdosVars) (p : CallPattern) (q : Query) : StepRes :=
  match p with
  | .connCap =>
    if env.ret q < 0 then .fatal (env.ret q) [.query q]
    else .next st [.query q]
  | .pdos reset =>
    let st0 : PdosVars := if reset then ⟨0, 0, 0⟩ else st
    if env.ret q = 0 then
      let st1 : PdosVars := ⟨env.outPtr q, env.outN q, env.outSz q⟩
      if st1.out_pdos = 0 then .assertFailed [.query q]
      else .next st1 [.query q, .destroyPdos st1.out_pdos st1.out_npdos st1.out_mem_sz]
    else if env.ret q = -ENOTSUP then .next st0 [.query q]
    else .fatal (env.ret q) [.query q]
  | .cable =>
    if env.ret q = 0 then .next st [.query q]
    else if env.ret q = -ENOTSUP then .next st [.query q]
    else .fatal (env.ret q) [.query q]
  | .alt =>
    if env.ret q = 0 then
      .next st [.query q, .destroyAltModes (env.outPtr q) (env.outN q) (env.outSz q)]
    else if env.ret q = -ENOTSUP then .next st [.query q]
    else .fatal (env.ret q) [.query q]
  | .msgDestroy =>
    if env.ret q = 0 then .next st [.query q, .destroyPdMessage (env.msgVal q)]
    else if env.ret q = -ENOTSUP then .next st [.query q]
    else .fatal (env.ret q) [.query q]
  | .msgPlain =>
    if env.ret q = 0 then .next st [.query q]
    else if env.ret q = -ENOTSUP then .next st [.query q]
    else .fatal (env.ret q) [.query q]

/-- Execute a list of call sites in order, stopping at the first early
return or failed assert, exactly like the C statement sequence. -/
def exec (env : Env) : List (CallPattern × Query) → PdosVars → StepRes
  | [], st => .next st []
  | (p, q) :: rest, st => (execCall env st p q).seq (fun st1 => exec env rest st1)

/-- The eleven call sites of the body of the connector loop of lstypec.c
(lines 42-175) for connector i, in source order, with the exact arguments
the C code passes (pd is capabilities.pd_version). -/
def connectorProgram (pd : Nat) (i : Nat) : List (CallPattern × Query) :=
  [ (.connCap, .getConnCapabilities i),
    (.pdos false, .getPdos i false 0 0 .Source .CurrentSupportedSourceCapabilities pd),
    (.pdos false, .getPdos i false 0 0 .Sink .CurrentSupportedSourceCapabilities pd),
    (.cable, .getCableProperties i),
    (.alt, .getAlternateModes .Connector i),
    (.alt, .getAlternateModes .SopPrime i),
    (.msgDestroy, .getPdMessage i .SopPrime .DiscoverIdentity),
    (.alt, .getAlternateModes .Sop i),
    (.msgPlain, .getPdMessage i .Sop .DiscoverIdentity),
    (.pdos true, .getPdos i true 0 0 .Source .CurrentSupportedSourceCapabilities pd),
    (.pdos true, .getPdos i true 0 0 .Sink .CurrentSupportedSourceCapabilities pd) ]

/-- Call sites of the whole connector loop for connectors 0, 1, ..., n-1 in
increasing order (the C for loop of lines 40-176). -/
def programFor (pd : Nat) : Nat → List (CallPattern × Query)
  | 0 => []
  | n + 1 => programFor pd n ++ connectorProgram pd n

/-- The full fixed call-site sequence determined by a capability result. -/
def fullProgram (caps : UcsiCapability) : List (CallPattern × Query) :=
  programFor caps.pd_version caps.num_connectors

/-- Final outcome of the driver: a returned status code, or an abort through
a failed assert. -/
inductive Outcome where
  | ret (code : Int)
  | assertFailed
deriving DecidableEq

/-- Shallow embedding of c_example_lstypec (lstypec.c lines 17-181): given
the library oracle and the backend argument, the outcome and the trace of
library calls performed.  Mirrors, in order: the backend selection of line
23, the construction and null check of lines 26-30, the capability query
and check of lines 34-38, the connector loop of lines 40-176 (see
connectorProgram) starting from zeroed locals (lines 19-21), and the final
session destroy and return 0 of lines 179-180. -/
def c_example_lstypec (env : Env) (backend : Nat) : Outcome × List Event :=
  let backend_type : Nat := if backend ≠ 0 then backend else OsBackends_Sysfs
  if env.newHandleNull then
    (Outcome.ret env.newRet, [Event.newSession backend_type])
  else if env.capRet ≠ 0 then
    (Outcome.ret env.capRet, [Event.newSession backend_type, Event.getCapabilities])
  else
    match exec env (fullProgram env.caps) ⟨0, 0, 0⟩ with
    | .next _ tr =>
      (Outcome.ret 0,
        [Event.newSession backend_type, Event.getCapabilities] ++ tr ++ [Event.destroySession])
    | .fatal r tr =>
      (Outcome.ret r, [Event.newSession backend_type, Event.getCapabilities] ++ tr)
    | .assertFailed tr =>
      (Outcome.assertFailed, [Event.newSession backend_type, Event.getCapabilities] ++ tr)

/-- The per-connector queries recorded in a trace, in order. -/
def queriesOf (tr : List Event) : List Query :=
  tr.filterMap (fun e => match e with | .query q => some q | _ => none)

/-- Whether a call site pairs the pattern with a query of the matching
library function (true of every entry of connectorProgram). -/
def patOk : CallPattern → Query → Bool
  | .connCap, .getConnCapabilities _ => true
  | .pdos _, .getPdos _ _ _ _ _ _ _ => true
  | .cable, .getCableProperties _ => true
  | .alt, .getAlternateModes _ _ => true
  | .msgDestroy, .getPdMessage _ _ _ => true
  | .msgPlain, .getPdMessage _ _ _ => true
  | _, _ => false

/-- A call site that cannot take an early-return or assert-failure path:
connector capability calls need a nonnegative code, pdos calls need success
with a non-null written pointer or -ENOTSUP, every other call needs success
or -ENOTSUP. -/
def nonFatalCall (env : Env) (p : CallPattern) (q : Query) : Prop :=
  match p with
  | .connCap => 0 ≤ env.ret q
  | .pdos _ => (env.ret q = 0 ∧ env.outPtr q ≠ 0) ∨ env.ret q = -ENOTSUP
  | _ => env.ret q = 0 ∨ env.ret q = -ENOTSUP

/-- Library oracle on which every call succeeds: one connector, PD version
0x0300, every status code 0, every written pointer 1 (non-null), two
elements of 64 bytes, and distinguishable PD message payloads for the SOP
prime and SOP recipients. -/
def envAll0 : Env where
  newRet := 0
  newHandleNull := false
  capRet := 0
  caps := ⟨1, 0x0300⟩
  ret := fun _ => 0
  outPtr := fun _ => 1
  outN := fun _ => 2
  outSz := fun _ => 64
  msgVal := fun q =>
    match q with
    | .getPdMessage _ .SopPrime _ => 10
    | _ => 20

/-- Library oracle whose get_conn_capabilities calls return -ENOTSUP while
every other call succeeds. -/
def envConnCapNotSup : Env where
  newRet := 0
  newHandleNull := false
  capRet := 0
  caps := ⟨1, 0x0300⟩
  ret := fun q =>
    match q with
    | .getConnCapabilities _ => -ENOTSUP
    | _ => 0
  outPtr := fun _ => 1
  outN := fun _ => 2
  outSz := fun _ => 64
  msgVal := fun _ => 7

/-- Library oracle on which every per-connector call fails with -5 (-EIO). -/
def envAllFatal : Env where
  newRet := 0
  newHandleNull := false
  capRet := 0
  caps := ⟨1, 0x0300⟩
  ret := fun _ => -5
  outPtr := fun _ => 0
  outN := fun _ => 0
  outSz := fun _ => 0
  msgVal := fun _ => 0

/-- Library oracle whose construction call fails with -12 (-ENOMEM) and a
null handle. -/
def envNewNull : Env where
  newRet := -12
  newHandleNull := true
  capRet := 0
  caps := ⟨1, 0x0300⟩
  ret := fun _ => 0
  outPtr := fun _ => 1
  outN := fun _ => 2
  outSz := fun _ => 64
  msgVal := fun _ => 0

lemma queriesOf_nil : queriesOf [] = [] := rfl

lemma queriesOf_append (a b : List Event) :
    queriesOf (a ++ b) = queriesOf a ++ queriesOf b := by
  simp [queriesOf, List.filterMap_append]

lemma mem_queriesOf {q : Query} {tr : List Event} :
    q ∈ queriesOf tr ↔ Event.query q ∈ tr := by
  simp only [queriesOf, List.mem_filterMap]
  constructor
  · rintro ⟨e, he, hq⟩
    cases e <;> simp_all
  · intro h
    exact ⟨Event.query q, h, rfl⟩

lemma execCall_trace_queries (env : Env) (st : PdosVars) (p : CallPattern) (q : Query) :
    queriesOf (execCall env st p q).trace = [q] := by
  cases p <;> simp only [execCall] <;> split_ifs <;>
    simp [StepRes.trace, queriesOf]

lemma execCall_no_session (env : Env) (st : PdosVars) (p : CallPattern) (q : Query) :
    ∀ e ∈ (execCall env st p q).trace, e.isSessionEvent = false := by
  cases p <;> simp only [execCall] <;> split_ifs <;>
    simp_all [StepRes.trace, Event.isSessionEvent]

lemma execCall_fatal_code {env : Env} {st : PdosVars} {p : CallPattern} {q : Query}
    {r : Int} {tr : List Event} (h : execCall env st p q = .fatal r tr) :
    r = env.ret q ∧ r ≠ 0 ∧ tr = [.query q] := by
  cases p <;> simp only [execCall] at h <;> split_ifs at h with h1 h2 <;>
    simp_all <;> omega

lemma execCall_assertFailed {env : Env} {st : PdosVars} {p : CallPattern} {q : Query}
    {tr : List Event} (h : execCall env st p q = .assertFailed tr) :
    env.ret q = 0 ∧ env.outPtr q = 0 ∧ tr = [.query q] := by
  cases p <;> simp only [execCall] at h <;> split_ifs at h with h1 h2 <;>
    simp_all

lemma execCall_next_good {env : Env} {st : PdosVars} {p : CallPattern} {q : Query}
    {st1 : PdosVars} {tr : List Event}
    (hcc : p = .connCap → env.ret q ≤ 0)
    (h : execCall env st p q = .next st1 tr) :
    env.ret q = 0 ∨ env.ret q = -ENOTSUP := by
  cases p <;> simp only [execCall] at h <;> split_ifs at h with h1 h2 <;>
    simp_all
  omega

lemma execCall_fatal_of_bad {env : Env} (st : PdosVars) {p : CallPattern} {q : Query}
    (h0 : env.ret q ≠ 0) (hns : env.ret q ≠ -ENOTSUP)
    (hcc : p = .connCap → env.ret q < 0) :
    execCall env st p q = .fatal (env.ret q) [.query q] := by
  cases p <;> simp only [execCall] <;> split_ifs with h1 h2 <;> simp_all

lemma execCall_next_of_nonFatal {env : Env} (st : PdosVars) {p : CallPattern} {q : Query}
    (h : nonFatalCall env p q) :
    ∃ st1 tr, execCall env st p q = .next st1 tr := by
  cases p <;> simp only [nonFatalCall] at h <;> simp only [execCall] <;>
    split_ifs <;>
    first
      | exact ⟨_, _, rfl⟩
      | (exfalso; omega)
      | (exfalso; simp_all [ENOTSUP]; omega)
      | (exfalso; rcases h with ⟨h0, hp⟩ | hns <;> simp_all [ENOTSUP] <;> omega)

lemma patOk_connCap {q : Query} (h : patOk .connCap q = true) :
    ∃ i, q = .getConnCapabilities i := by
  cases q <;> simp_all [patOk]

lemma patOk_pdos_isGetPdos {rs : Bool} {q : Query} (h : patOk (.pdos rs) q = true) :
    q.isGetPdos = true := by
  cases q <;> simp_all [patOk, Query.isGetPdos]

lemma patOk_isGetPdos_pdos {p : CallPattern} {q : Query} (h : patOk p q = true)
    (hp : ∀ rs, p ≠ .pdos rs) : q.isGetPdos = false := by
  cases p <;> cases q <;> simp_all [patOk, Query.isGetPdos]

lemma patOk_alt_isGetAltModes {p : CallPattern} {q : Query} (h : patOk p q = true) :
    q.isGetAltModes = (p = .alt) := by
  cases p <;> cases q <;> simp_all [patOk, Query.isGetAltModes]

lemma exec_no_session (env : Env) :
    ∀ (prog : List (CallPattern × Query)) (st : PdosVars),
      ∀ e ∈ (exec env prog st).trace, e.isSessionEvent = false := by
  intro prog
  induction prog with
  | nil => intro st e he; simp [exec, StepRes.trace] at he
  | cons pq rest ih =>
    intro st e he
    obtain ⟨p, q⟩ := pq
    rcases hc : execCall env st p q with ⟨st1, tr1⟩ | ⟨r1, tr1⟩ | tr1
    · rcases he2 : exec env rest st1 with ⟨st2, tr2⟩ | ⟨r2, tr2⟩ | tr2 <;>
        simp only [exec, hc, he2, StepRes.seq, StepRes.trace, List.mem_append] at he <;>
        rcases he with h | h <;>
        first
          | exact execCall_no_session env st p q e (by rw [hc]; exact h)
          | exact ih st1 e (by rw [he2]; exact h)
    · simp only [exec, hc, StepRes.seq, StepRes.trace] at he
      exact execCall_no_session env st p q e (by rw [hc]; exact he)
    · simp only [exec, hc, StepRes.seq, StepRes.trace] at he
      exact execCall_no_session env st p q e (by rw [hc]; exact he)

lemma exec_queries_sub (env : Env) :
    ∀ (prog : List (CallPattern × Query)) (st : PdosVars),
      ∃ rest, queriesOf (exec env prog st).trace ++ rest = prog.map Prod.snd := by
  intro prog
  induction prog with
  | nil => intro st; exact ⟨[], rfl⟩
  | cons pq rest ih =>
    intro st
    obtain ⟨p, q⟩ := pq
    have hq := execCall_trace_queries env st p q
    rcases hc : execCall env st p q with ⟨st1, tr1⟩ | ⟨r1, tr1⟩ | tr1 <;> rw [hc] at hq <;>
      simp only [StepRes.trace] at hq
    · obtain ⟨r2, hr2⟩ := ih st1
      rcases he2 : exec env rest st1 with ⟨st2, tr2⟩ | ⟨r2', tr2⟩ | tr2 <;> rw [he2] at hr2 <;>
        simp only [StepRes.trace] at hr2 <;>
        refine ⟨r2, ?_⟩ <;>
        simp only [exec, hc, he2, StepRes.seq, StepRes.trace, queriesOf_append, hq,
          List.map_cons] <;>
        simp [List.append_assoc, hr2]
    · exact ⟨rest.map Prod.snd,
        by simp only [exec, hc, StepRes.seq, StepRes.trace, List.map_cons]; simp [hq]⟩
    · exact ⟨rest.map Prod.snd,
        by simp only [exec, hc, StepRes.seq, StepRes.trace, List.map_cons]; simp [hq]⟩

lemma exec_fatal_code (env : Env) :
    ∀ (prog : List (CallPattern × Query)) (st : PdosVars) (r : Int) (tr : List Event),
      exec env prog st = .fatal r tr → r ≠ 0 := by
  intro prog
  induction prog with
  | nil => intro st r tr h; exact StepRes.noConfusion h
  | cons pq rest ih =>
    intro st r tr h
    obtain ⟨p, q⟩ := pq
    rcases hc : execCall env st p q with ⟨st1, tr1⟩ | ⟨r1, tr1⟩ | tr1
    · rcases he2 : exec env rest st1 with ⟨st2, tr2⟩ | ⟨r2, tr2⟩ | tr2 <;>
        simp only [exec, hc, he2, StepRes.seq] at h
      · exact StepRes.noConfusion h
      · injection h with h1 h2
        exact h1 ▸ ih st1 r2 tr2 he2
      · exact StepRes.noConfusion h
    · simp only [exec, hc, StepRes.seq] at h
      injection h with h1 h2
      obtain ⟨-, hr, -⟩ := execCall_fatal_code hc
      exact h1 ▸ hr
    · simp only [exec, hc, StepRes.seq] at h
      exact StepRes.noConfusion h

lemma exec_no_assert (env : Env) (hpop : ∀ q, env.ret q = 0 → env.outPtr q ≠ 0) :
    ∀ (prog : List (CallPattern × Query)) (st : PdosVars) (tr : List Event),
      exec env prog st ≠ .assertFailed tr := by
  intro prog
  induction prog with
  | nil => intro st tr h; exact StepRes.noConfusion h
  | cons pq rest ih =>
    intro st tr h
    obtain ⟨p, q⟩ := pq
    rcases hc : execCall env st p q with ⟨st1, tr1⟩ | ⟨r1, tr1⟩ | tr1
    · rcases he2 : exec env rest st1 with ⟨st2, tr2⟩ | ⟨r2, tr2⟩ | tr2 <;>
        simp only [exec, hc, he2, StepRes.seq] at h
      · exact StepRes.noConfusion h
      · exact StepRes.noConfusion h
      · exact ih st1 tr2 he2
    · simp only [exec, hc, StepRes.seq] at h
      exact StepRes.noConfusion h
    · obtain ⟨h0, hp, -⟩ := execCall_assertFailed hc
      exact hpop q h0 hp

lemma exec_all_nonFatal (env : Env) :
    ∀ (prog : List (CallPattern × Query)) (st : PdosVars),
      (∀ pq ∈ prog, nonFatalCall env pq.1 pq.2) →
      ∃ st1 tr, exec env prog st = .next st1 tr ∧ queriesOf tr = prog.map Prod.snd := by
  intro prog
  induction prog with
  | nil => intro st _; exact ⟨st, [], rfl, rfl⟩
  | cons pq rest ih =>
    intro st hall
    obtain ⟨p, q⟩ := pq
    obtain ⟨st1, tr1, hc⟩ := execCall_next_of_nonFatal st (hall (p, q) (by simp))
    have hq : queriesOf tr1 = [q] := by
      have h := execCall_trace_queries env st p q
      rw [hc] at h
      exact h
    obtain ⟨st2, tr2, he2, hq2⟩ := ih st1 (fun x hx => hall x (by simp [hx]))
    exact ⟨st2, tr1 ++ tr2, by simp only [exec, hc, he2, StepRes.seq],
      by simp [queriesOf_append, hq, hq2]⟩

lemma exec_bad_fatal (env : Env)
    (hcc : ∀ i, env.ret (Query.getConnCapabilities i) ≤ 0) :
    ∀ (prog : List (CallPattern × Query)) (st : PdosVars) (q : Query),
      (∀ pq ∈ prog, patOk pq.1 pq.2 = true) →
      q ∈ queriesOf (exec env prog st).trace →
      env.ret q ≠ 0 → env.ret q ≠ -ENOTSUP →
      ∃ pre tr, exec env prog st = .fatal (env.ret q) tr ∧
        queriesOf tr = pre ++ [q] ∧
        ∀ x ∈ pre, env.ret x = 0 ∨ env.ret x = -ENOTSUP := by
  intro prog
  induction prog with
  | nil => intro st q _ hq; simp [exec, StepRes.trace, queriesOf] at hq
  | cons pq rest ih =>
    intro st q hwf hq h0 hns
    obtain ⟨p, q1⟩ := pq
    have hq1 : queriesOf (execCall env st p q1).trace = [q1] :=
      execCall_trace_queries env st p q1
    have hwf1 : patOk p q1 = true := hwf (p, q1) (by simp)
    have hwfr : ∀ x ∈ rest, patOk x.1 x.2 = true := fun x hx => hwf x (by simp [hx])
    rcases hc : execCall env st p q1 with ⟨st1, tr1⟩ | ⟨r1, tr1⟩ | tr1 <;> rw [hc] at hq1 <;>
      simp only [StepRes.trace] at hq1
    · have hgood : env.ret q1 = 0 ∨ env.ret q1 = -ENOTSUP := by
        refine execCall_next_good ?_ hc
        intro hp
        obtain ⟨i, rfl⟩ := patOk_connCap (hp ▸ hwf1)
        exact hcc i
      have hne : q ≠ q1 := by
        rintro rfl
        rcases hgood with h | h
        · exact h0 h
        · exact hns h
      rcases he2 : exec env rest st1 with ⟨st2, tr2⟩ | ⟨r2, tr2⟩ | tr2 <;>
        simp only [exec, hc, he2, StepRes.seq, StepRes.trace, queriesOf_append, hq1,
          List.mem_append, List.mem_singleton] at hq ⊢ <;>
        rcases hq with h | h <;>
        try exact absurd h hne
      · obtain ⟨pre, tr, hfat, -, -⟩ := ih st1 q hwfr (by rw [he2]; exact h) h0 hns
        rw [he2] at hfat
        exact StepRes.noConfusion hfat
      · obtain ⟨pre, tr, hfat, hqt, hpre⟩ := ih st1 q hwfr (by rw [he2]; exact h) h0 hns
        rw [he2] at hfat
        injection hfat with hr htr
        refine ⟨q1 :: pre, tr1 ++ tr2, ?_, ?_, ?_⟩
        · rw [hr]
        · subst htr
          simp [queriesOf_append, hq1, hqt]
        · intro x hx
          rcases List.mem_cons.1 hx with rfl | hx2
          · exact hgood
          · exact hpre x hx2
      · obtain ⟨pre, tr, hfat, -, -⟩ := ih st1 q hwfr (by rw [he2]; exact h) h0 hns
        rw [he2] at hfat
        exact StepRes.noConfusion hfat
    · simp only [exec, hc, StepRes.seq, StepRes.trace, hq1, List.mem_singleton] at hq ⊢
      subst hq
      obtain ⟨hr, -, htr⟩ := execCall_fatal_code hc
      refine ⟨[], tr1, ?_, by simp [htr, queriesOf], by simp⟩
      rw [← hr]
    · simp only [exec, hc, StepRes.seq, StepRes.trace, hq1, List.mem_singleton] at hq
      subst hq
      obtain ⟨hr0, -, -⟩ := execCall_assertFailed hc
      exact absurd hr0 h0

lemma execCall_destroyPdos_mem {env : Env} {st : PdosVars} {p : CallPattern} {q : Query}
    {a b c : Nat} (h : Event.destroyPdos a b c ∈ (execCall env st p q).trace) :
    env.ret q = 0 ∧ a = env.outPtr q ∧ b = env.outN q ∧ c = env.outSz q ∧ a ≠ 0 ∧
      (∃ rs, p = CallPattern.pdos rs) := by
  cases p <;> simp only [execCall] at h <;> split_ifs at h with h1 h2 <;>
    simp_all [StepRes.trace]

lemma exec_destroyPdos_mem (env : Env) :
    ∀ (prog : List (CallPattern × Query)) (st : PdosVars) (a b c : Nat),
      (∀ pq ∈ prog, patOk pq.1 pq.2 = true) →
      Event.destroyPdos a b c ∈ (exec env prog st).trace →
      ∃ q, Event.query q ∈ (exec env prog st).trace ∧ q.isGetPdos = true ∧
        env.ret q = 0 ∧ a = env.outPtr q ∧ b = env.outN q ∧ c = env.outSz q ∧ a ≠ 0 := by
  intro prog
  induction prog with
  | nil => intro st a b c _ h; simp [exec, StepRes.trace] at h
  | cons pq rest ih =>
    intro st a b c hwf h
    obtain ⟨p, q1⟩ := pq
    have hwf1 : patOk p q1 = true := hwf (p, q1) (by simp)
    have hwfr : ∀ x ∈ rest, patOk x.1 x.2 = true := fun x hx => hwf x (by simp [hx])
    rcases hc : execCall env st p q1 with ⟨st1, tr1⟩ | ⟨r1, tr1⟩ | tr1
    · rcases he2 : exec env rest st1 with ⟨st2, tr2⟩ | ⟨r2, tr2⟩ | tr2 <;>
        simp only [exec, hc, he2, StepRes.seq, StepRes.trace, List.mem_append] at h ⊢ <;>
        rcases h with h | h <;>
        first
          | (obtain ⟨h0, ha, hb, hcs, hz, rs, hp⟩ := execCall_destroyPdos_mem
                (by rw [hc]; exact h)
             refine ⟨q1, Or.inl ?_, ?_, h0, ha, hb, hcs, hz⟩
             · have hqq := execCall_trace_queries env st p q1
               rw [hc] at hqq
               simp only [StepRes.trace] at hqq
               have : q1 ∈ queriesOf tr1 := by rw [hqq]; simp
               exact mem_queriesOf.1 this
             · exact patOk_pdos_isGetPdos (hp ▸ hwf1))
          | (obtain ⟨q, hq, hgp, h0, ha, hb, hcs, hz⟩ := ih st1 a b c hwfr
                (by rw [he2]; exact h)
             rw [he2] at hq
             exact ⟨q, Or.inr hq, hgp, h0, ha, hb, hcs, hz⟩)
    · simp only [exec, hc, StepRes.seq, StepRes.trace] at h ⊢
      obtain ⟨h0, ha, hb, hcs, hz, rs, hp⟩ := execCall_destroyPdos_mem (by rw [hc]; exact h)
      refine ⟨q1, ?_, patOk_pdos_isGetPdos (hp ▸ hwf1), h0, ha, hb, hcs, hz⟩
      have hqq := execCall_trace_queries env st p q1
      rw [hc] at hqq
      simp only [StepRes.trace] at hqq
      have : q1 ∈ queriesOf tr1 := by rw [hqq]; simp
      exact mem_queriesOf.1 this
    · simp only [exec, hc, StepRes.seq, StepRes.trace] at h ⊢
      obtain ⟨h0, ha, hb, hcs, hz, rs, hp⟩ := execCall_destroyPdos_mem (by rw [hc]; exact h)
      refine ⟨q1, ?_, patOk_pdos_isGetPdos (hp ▸ hwf1), h0, ha, hb, hcs, hz⟩
      have hqq := execCall_trace_queries env st p q1
      rw [hc] at hqq
      simp only [StepRes.trace] at hqq
      have : q1 ∈ queriesOf tr1 := by rw [hqq]; simp
      exact mem_queriesOf.1 this

lemma execCall_pdos_destroys_exact (env : Env) (st : PdosVars) (p : CallPattern) (q : Query)
    (hpop : env.ret q = 0 → env.outPtr q ≠ 0) (hwf : patOk p q = true) :
    (execCall env st p q).trace.filterMap Event.pdosDestroyArg =
      ((queriesOf (execCall env st p q).trace).filter
        (fun x => x.isGetPdos && decide (env.ret x = 0))).map
        (fun x => (env.outPtr x, env.outN x, env.outSz x)) := by
  cases p
  case pdos rs =>
    have hb : q.isGetPdos = true := patOk_pdos_isGetPdos hwf
    simp only [execCall]
    split_ifs with h1 h2 <;>
      first
        | exact absurd (hpop h1) (by simpa using h2)
        | simp [StepRes.trace, queriesOf, Event.pdosDestroyArg, hb, h1]
  all_goals
    have hb : q.isGetPdos = false :=
      patOk_isGetPdos_pdos hwf (fun rs h => CallPattern.noConfusion h)
  all_goals
    simp only [execCall] <;> split_ifs <;>
      simp [StepRes.trace, queriesOf, Event.pdosDestroyArg, hb]

lemma execCall_alt_destroys_exact (env : Env) (st : PdosVars) (p : CallPattern) (q : Query)
    (hpop : env.ret q = 0 → env.outPtr q ≠ 0) (hwf : patOk p q = true) :
    (execCall env st p q).trace.filterMap Event.altDestroyArg =
      ((queriesOf (execCall env st p q).trace).filter
        (fun x => x.isGetAltModes && decide (env.ret x = 0))).map
        (fun x => (env.outPtr x, env.outN x, env.outSz x)) := by
  have hb : q.isGetAltModes = (p = CallPattern.alt) := patOk_alt_isGetAltModes hwf
  cases p
  case alt =>
    simp only [execCall]
    split_ifs with h1 h2 <;>
      simp_all [StepRes.trace, queriesOf, Event.altDestroyArg]
  case pdos rs =>
    simp only [execCall]
    split_ifs with h1 h2
    · exact absurd (hpop h1) (by simpa using h2)
    all_goals simp_all [StepRes.trace, queriesOf, Event.altDestroyArg]
  all_goals
    simp only [execCall] <;> split_ifs <;>
      simp_all [StepRes.trace, queriesOf, Event.altDestroyArg]

lemma exec_pdos_destroys_exact (env : Env)
    (hpop : ∀ q, env.ret q = 0 → env.outPtr q ≠ 0) :
    ∀ (prog : List (CallPattern × Query)) (st : PdosVars),
      (∀ pq ∈ prog, patOk pq.1 pq.2 = true) →
      (exec env prog st).trace.filterMap Event.pdosDestroyArg =
        ((queriesOf (exec env prog st).trace).filter
          (fun x => x.isGetPdos && decide (env.ret x = 0))).map
          (fun x => (env.outPtr x, env.outN x, env.outSz x)) := by
  intro prog
  induction prog with
  | nil => intro st _; simp [exec, StepRes.trace, queriesOf]
  | cons pq rest ih =>
    intro st hwf
    obtain ⟨p, q1⟩ := pq
    have hwf1 : patOk p q1 = true := hwf (p, q1) (by simp)
    have hwfr : ∀ x ∈ rest, patOk x.1 x.2 = true := fun x hx => hwf x (by simp [hx])
    have hcall := execCall_pdos_destroys_exact env st p q1 (hpop q1) hwf1
    rcases hc : execCall env st p q1 with ⟨st1, tr1⟩ | ⟨r1, tr1⟩ | tr1 <;> rw [hc] at hcall <;>
      simp only [StepRes.trace] at hcall
    · have hrest := ih st1 hwfr
      rcases he2 : exec env rest st1 with ⟨st2, tr2⟩ | ⟨r2, tr2⟩ | tr2 <;>
        rw [he2] at hrest <;> simp only [StepRes.trace] at hrest <;>
        simp only [exec, hc, he2, StepRes.seq, StepRes.trace, List.filterMap_append,
          queriesOf_append, List.filter_append, List.map_append, hcall, hrest]
    · simp only [exec, hc, StepRes.seq, StepRes.trace, hcall]
    · simp only [exec, hc, StepRes.seq, StepRes.trace, hcall]

lemma exec_alt_destroys_exact (env : Env)
    (hpop : ∀ q, env.ret q = 0 → env.outPtr q ≠ 0) :
    ∀ (prog : List (CallPattern × Query)) (st : PdosVars),
      (∀ pq ∈ prog, patOk pq.1 pq.2 = true) →
      (exec env prog st).trace.filterMap Event.altDestroyArg =
        ((queriesOf (exec env prog st).trace).filter
          (fun x => x.isGetAltModes && decide (env.ret x = 0))).map
          (fun x => (env.outPtr x, env.outN x, env.outSz x)) := by
  intro prog
  induction prog with
  | nil => intro st _; simp [exec, StepRes.trace, queriesOf]
  | cons pq rest ih =>
    intro st hwf
    obtain ⟨p, q1⟩ := pq
    have hwf1 : patOk p q1 = true := hwf (p, q1) (by simp)
    have hwfr : ∀ x ∈ rest, patOk x.1 x.2 = true := fun x hx => hwf x (by simp [hx])
    have hcall := execCall_alt_destroys_exact env st p q1 (hpop q1) hwf1
    rcases hc : execCall env st p q1 with ⟨st1, tr1⟩ | ⟨r1, tr1⟩ | tr1 <;> rw [hc] at hcall <;>
      simp only [StepRes.trace] at hcall
    · have hrest := ih st1 hwfr
      rcases he2 : exec env rest st1 with ⟨st2, tr2⟩ | ⟨r2, tr2⟩ | tr2 <;>
        rw [he2] at hrest <;> simp only [StepRes.trace] at hrest <;>
        simp only [exec, hc, he2, StepRes.seq, StepRes.trace, List.filterMap_append,
          queriesOf_append, List.filter_append, List.map_append, hcall, hrest]
    · simp only [exec, hc, StepRes.seq, StepRes.trace, hcall]
    · simp only [exec, hc, StepRes.seq, StepRes.trace, hcall]

lemma patOk_not_connCap {p : CallPattern} {q : Query} (h : patOk p q = true)
    (hp : p ≠ CallPattern.connCap) : ∀ i, q ≠ Query.getConnCapabilities i := by
  cases p <;> cases q <;> simp_all [patOk]

lemma mem_connectorProgram {pq : CallPattern × Query} {pd i : Nat}
    (h : pq ∈ connectorProgram pd i) :
    patOk pq.1 pq.2 = true ∧ pq.2.connector = i ∧
      (∀ v, pq.2.pdVersionOf = some v → v = pd) := by
  simp only [connectorProgram, List.mem_cons, List.not_mem_nil, or_false] at h
  rcases h with rfl|rfl|rfl|rfl|rfl|rfl|rfl|rfl|rfl|rfl|rfl <;>
    refine ⟨rfl, rfl, fun v hv => ?_⟩ <;>
    first
      | exact (Option.some.inj hv).symm
      | exact Option.noConfusion hv

lemma mem_programFor {pq : CallPattern × Query} {pd : Nat} :
    ∀ {n : Nat}, pq ∈ programFor pd n →
      patOk pq.1 pq.2 = true ∧ pq.2.connector < n ∧
        (∀ v, pq.2.pdVersionOf = some v → v = pd) := by
  intro n
  induction n with
  | zero => intro h; simp [programFor] at h
  | succ n ih =>
    intro h
    rcases List.mem_append.1 (by simpa [programFor] using h) with h1 | h2
    · obtain ⟨ha, hb, hc⟩ := ih h1
      exact ⟨ha, Nat.lt_succ_of_lt hb, hc⟩
    · obtain ⟨ha, hb, hc⟩ := mem_connectorProgram h2
      exact ⟨ha, hb ▸ Nat.lt_succ_self n, hc⟩

lemma fullProgram_patOk (caps : UcsiCapability) :
    ∀ pq ∈ fullProgram caps, patOk pq.1 pq.2 = true :=
  fun _ h => (mem_programFor h).1

lemma run_newNull (env : Env) (backend : Nat) (h : env.newHandleNull = true) :
    c_example_lstypec env backend =
      (Outcome.ret env.newRet,
        [Event.newSession (if backend ≠ 0 then backend else OsBackends_Sysfs)]) := by
  simp [c_example_lstypec, h]

lemma run_capFail (env : Env) (backend : Nat) (hnew : env.newHandleNull = false)
    (hcap : env.capRet ≠ 0) :
    c_example_lstypec env backend =
      (Outcome.ret env.capRet,
        [Event.newSession (if backend ≠ 0 then backend else OsBackends_Sysfs),
         Event.getCapabilities]) := by
  simp [c_example_lstypec, hnew, hcap]

lemma run_main (env : Env) (backend : Nat) (hnew : env.newHandleNull = false)
    (hcap : env.capRet = 0) :
    c_example_lstypec env backend =
      (match exec env (fullProgram env.caps) ⟨0, 0, 0⟩ with
        | .next _ tr => (Outcome.ret 0,
            [Event.newSession (if backend ≠ 0 then backend else OsBackends_Sysfs),
             Event.getCapabilities] ++ tr ++ [Event.destroySession])
        | .fatal r tr => (Outcome.ret r,
            [Event.newSession (if backend ≠ 0 then backend else OsBackends_Sysfs),
             Event.getCapabilities] ++ tr)
        | .assertFailed tr => (Outcome.assertFailed,
            [Event.newSession (if backend ≠ 0 then backend else OsBackends_Sysfs),
             Event.getCapabilities] ++ tr)) := by
  simp [c_example_lstypec, hnew, hcap]

lemma queriesOf_run (env : Env) (backend : Nat) (hnew : env.newHandleNull = false)
    (hcap : env.capRet = 0) :
    queriesOf (c_example_lstypec env backend).2 =
      queriesOf (exec env (fullProgram env.caps) ⟨0, 0, 0⟩).trace := by
  rw [run_main env backend hnew hcap]
  rcases hx : exec env (fullProgram env.caps) ⟨0, 0, 0⟩ with ⟨st1, tr⟩ | ⟨r, tr⟩ | tr <;>
    simp [queriesOf_append, queriesOf, StepRes.trace]

lemma filterMap_run {α : Type} (env : Env) (backend : Nat)
    (hnew : env.newHandleNull = false) (hcap : env.capRet = 0) (f : Event → Option α)
    (h1 : ∀ b, f (Event.newSession b) = none) (h2 : f Event.getCapabilities = none)
    (h3 : f Event.destroySession = none) :
    (c_example_lstypec env backend).2.filterMap f =
      (exec env (fullProgram env.caps) ⟨0, 0, 0⟩).trace.filterMap f := by
  rw [run_main env backend hnew hcap]
  rcases hx : exec env (fullProgram env.caps) ⟨0, 0, 0⟩ with ⟨st1, tr⟩ | ⟨r, tr⟩ | tr <;>
    simp [List.filterMap_append, List.filterMap_cons, h1, h2, h3, StepRes.trace]

lemma mem_fullProgram_snd {q : Query} {caps : UcsiCapability}
    (h : q ∈ (fullProgram caps).map Prod.snd) :
    q.connector < caps.num_connectors ∧
      ∀ v, q.pdVersionOf = some v → v = caps.pd_version := by
  obtain ⟨pq, hpq, rfl⟩ := List.mem_map.1 h
  exact ⟨(mem_programFor hpq).2.1, (mem_programFor hpq).2.2⟩

lemma queries_run_sub (env : Env) (backend : Nat) {q : Query}
    (hq : q ∈ queriesOf (c_example_lstypec env backend).2) :
    q ∈ (fullProgram env.caps).map Prod.snd := by
  cases hnew : env.newHandleNull
  · by_cases hcap : env.capRet = 0
    · rw [queriesOf_run env backend hnew hcap] at hq
      obtain ⟨rest, hrest⟩ := exec_queries_sub env (fullProgram env.caps) ⟨0, 0, 0⟩
      rw [← hrest]
      exact List.mem_append_left _ hq
    · rw [run_capFail env backend hnew hcap] at hq
      simp [queriesOf] at hq
  · rw [run_newNull env backend hnew] at hq
    simp [queriesOf] at hq

/-- Claim C1, counterexample: the claim also names get_conn_capabilities,
but a -ENOTSUP status from libtypec_rs_get_conn_capabilities on connector 0
makes c_example_lstypec return -ENOTSUP at once (the guard of lstypec.c
line 45 is ret < 0, and -ENOTSUP < 0): the only per-connector query issued
is that first one, so enumeration is aborted rather than continued. -/
theorem claim_C1_counterexample :
    (c_example_lstypec envConnCapNotSup 1).1 = Outcome.ret (-ENOTSUP) ∧
      queriesOf (c_example_lstypec envConnCapNotSup 1).2 =
        [Query.getConnCapabilities 0] := by
  decide

/-- Claim C1, amended: for get_pdos, get_cable_properties,
get_alternate_modes and get_pd_message, a -ENOTSUP return does not abort
enumeration: if the construction and capability calls succeed, every
get_conn_capabilities call returns 0, every other per-connector query
returns 0 (writing a non-null pointer) or -ENOTSUP, then c_example_lstypec
still issues the complete fixed query sequence for every connector and
returns 0.  (get_conn_capabilities itself aborts on any negative code,
including -ENOTSUP: see the counterexample.) -/
theorem claim_C1_amended (env : Env) (backend : Nat)
    (hnew : env.newHandleNull = false) (hcap : env.capRet = 0)
    (hcc : ∀ i, env.ret (Query.getConnCapabilities i) = 0)
    (hother : ∀ q : Query, (∀ i, q ≠ Query.getConnCapabilities i) →
      env.ret q = 0 ∨ env.ret q = -ENOTSUP)
    (hpop : ∀ q, env.ret q = 0 → env.outPtr q ≠ 0) :
    (c_example_lstypec env backend).1 = Outcome.ret 0 ∧
      queriesOf (c_example_lstypec env backend).2 =
        (fullProgram env.caps).map Prod.snd := by
  have hall : ∀ pq ∈ fullProgram env.caps, nonFatalCall env pq.1 pq.2 := by
    intro pq hpq
    have hpat := (mem_programFor hpq).1
    obtain ⟨p, q⟩ := pq
    cases p
    case connCap =>
      obtain ⟨i, rfl⟩ := patOk_connCap hpat
      simp [nonFatalCall, hcc i]
    case pdos rs =>
      have hnc := patOk_not_connCap hpat (fun h => CallPattern.noConfusion h)
      rcases hother q hnc with h0 | hns
      · exact Or.inl ⟨h0, hpop q h0⟩
      · exact Or.inr hns
    all_goals
      exact hother _ (patOk_not_connCap hpat (fun h => CallPattern.noConfusion h))
  obtain ⟨st1, tr, hx, hqt⟩ := exec_all_nonFatal env (fullProgram env.caps) ⟨0, 0, 0⟩ hall
  refine ⟨?_, ?_⟩
  · rw [run_main env backend hnew hcap, hx]
  · rw [queriesOf_run env backend hnew hcap, hx]
    exact hqt

/-- Witness for the amended claim C1: on an oracle where every call
succeeds, all eleven queries of the single connector are issued and the
driver returns 0. -/
theorem claim_C1_witness :
    (c_example_lstypec envAll0 0).1 = Outcome.ret 0 ∧
      queriesOf (c_example_lstypec envAll0 0).2 =
        (fullProgram envAll0.caps).map Prod.snd :=
  claim_C1_amended envAll0 0 rfl rfl (fun _ => rfl) (fun _ _ => Or.inl rfl)
    (fun _ _ => Nat.one_ne_zero)

/-- Claim C2 (confirmed): with POSIX-style status codes (get_conn_capabilities
returning 0 or a negative errno), any per-connector query returning a code
other than 0 and -ENOTSUP makes c_example_lstypec return that same code
immediately: the offending query is the last one issued, every query before
it returned 0 or -ENOTSUP, and no further query of this or any later
connector is issued. -/
theorem claim_C2_fatal_abort (env : Env) (backend : Nat)
    (hcc : ∀ i, env.ret (Query.getConnCapabilities i) ≤ 0)
    (q : Query) (hq : q ∈ queriesOf (c_example_lstypec env backend).2)
    (h0 : env.ret q ≠ 0) (hns : env.ret q ≠ -ENOTSUP) :
    (c_example_lstypec env backend).1 = Outcome.ret (env.ret q) ∧
      ∃ pre, queriesOf (c_example_lstypec env backend).2 = pre ++ [q] ∧
        ∀ x ∈ pre, env.ret x = 0 ∨ env.ret x = -ENOTSUP := by
  cases hnew : env.newHandleNull
  · by_cases hcap : env.capRet = 0
    · have hqr := queriesOf_run env backend hnew hcap
      rw [hqr] at hq
      obtain ⟨pre, tr, hfat, hqt, hpre⟩ :=
        exec_bad_fatal env hcc (fullProgram env.caps) ⟨0, 0, 0⟩ q
          (fullProgram_patOk env.caps) hq h0 hns
      refine ⟨?_, pre, ?_, hpre⟩
      · rw [run_main env backend hnew hcap, hfat]
      · rw [hqr, hfat]
        exact hqt
    · rw [run_capFail env backend hnew hcap] at hq
      simp [queriesOf] at hq
  · rw [run_newNull env backend hnew] at hq
    simp [queriesOf] at hq

/-- Witness for claim C2: on an oracle where every call fails with -5, the
driver stops after the very first query (get_conn_capabilities of connector
0) and returns -5. -/
theorem claim_C2_witness :
    (c_example_lstypec envAllFatal 0).1 =
        Outcome.ret (envAllFatal.ret (Query.getConnCapabilities 0)) ∧
      ∃ pre, queriesOf (c_example_lstypec envAllFatal 0).2 =
          pre ++ [Query.getConnCapabilities 0] ∧
        ∀ x ∈ pre, envAllFatal.ret x = 0 ∨ envAllFatal.ret x = -ENOTSUP :=
  claim_C2_fatal_abort envAllFatal 0 (fun _ => (by norm_num : (-5 : Int) ≤ 0))
    (Query.getConnCapabilities 0) (by decide) (by decide) (by decide)

/-- Claim C3 (confirmed): every per-connector query issued by
c_example_lstypec uses a connector index below num_connectors of the
capability result of the preceding libtypec_rs_get_capabilities call. -/
theorem claim_C3_connector_bounds (env : Env) (backend : Nat) :
    ∀ q ∈ queriesOf (c_example_lstypec env backend).2,
      q.connector < env.caps.num_connectors := by
  intro q hq
  exact (mem_fullProgram_snd (queries_run_sub env backend hq)).1

/-- Witness for claim C3: on the all-success oracle, the first query is in
the trace and its connector index 0 is below num_connectors = 1. -/
theorem claim_C3_witness :
    Query.getConnCapabilities 0 ∈ queriesOf (c_example_lstypec envAll0 0).2 ∧
      (Query.getConnCapabilities 0).connector < envAll0.caps.num_connectors :=
  ⟨by decide,
    claim_C3_connector_bounds envAll0 0 (Query.getConnCapabilities 0) (by decide)⟩

/-- Claim C8 (confirmed): libtypec_rs_new yields a status code and a
handle-or-null; with a null handle c_example_lstypec returns that status at
once, its trace being the single construction call (no query, no destroy);
with a non-null handle the trace continues with the capability query. -/
theorem claim_C8_construction (env : Env) (backend : Nat) :
    (env.newHandleNull = true →
      (c_example_lstypec env backend).1 = Outcome.ret env.newRet ∧
        (c_example_lstypec env backend).2 =
          [Event.newSession (if backend ≠ 0 then backend else OsBackends_Sysfs)]) ∧
    (env.newHandleNull = false →
      ∃ tr, (c_example_lstypec env backend).2 =
        Event.newSession (if backend ≠ 0 then backend else OsBackends_Sysfs) ::
          Event.getCapabilities :: tr) := by
  constructor
  · intro h
    rw [run_newNull env backend h]
    exact ⟨rfl, rfl⟩
  · intro h
    by_cases hcap : env.capRet = 0
    · rw [run_main env backend h hcap]
      rcases hx : exec env (fullProgram env.caps) ⟨0, 0, 0⟩ with ⟨st1, tr⟩ | ⟨r, tr⟩ | tr <;>
        exact ⟨_, rfl⟩
    · rw [run_capFail env backend h hcap]
      exact ⟨[], rfl⟩

/-- Witness for claim C8: both branches at concrete oracles - a failed
construction (null handle, code -12) returns -12 with a one-event trace,
and a successful construction continues with the capability query. -/
theorem claim_C8_witness :
    ((c_example_lstypec envNewNull 5).1 = Outcome.ret envNewNull.newRet ∧
      (c_example_lstypec envNewNull 5).2 =
        [Event.newSession (if (5 : Nat) ≠ 0 then 5 else OsBackends_Sysfs)]) ∧
    (∃ tr, (c_example_lstypec envAll0 0).2 =
      Event.newSession (if (0 : Nat) ≠ 0 then 0 else OsBackends_Sysfs) ::
        Event.getCapabilities :: tr) :=
  ⟨(claim_C8_construction envNewNull 5).1 rfl,
    (claim_C8_construction envAll0 0).2 rfl⟩

/-- Claim C9 (confirmed): the backend kind passed to libtypec_rs_new is
OsBackends_Sysfs when the backend argument is 0, and the argument itself
otherwise (lstypec.c line 23). -/
theorem claim_C9_backend_select (env : Env) (backend : Nat) :
    (c_example_lstypec env backend).2.head? =
      some (Event.newSession
        (if backend = 0 then OsBackends_Sysfs else backend)) := by
  have hb : (if backend ≠ 0 then backend else OsBackends_Sysfs) =
      (if backend = 0 then OsBackends_Sysfs else backend) := by
    by_cases h : backend = 0 <;> simp [h]
  cases hnew : env.newHandleNull
  · by_cases hcap : env.capRet = 0
    · rw [run_main env backend hnew hcap]
      rcases hx : exec env (fullProgram env.caps) ⟨0, 0, 0⟩ with ⟨st1, tr⟩ | ⟨r, tr⟩ | tr <;>
        simp [hb]
    · rw [run_capFail env backend hnew hcap]
      simp [hb]
  · rw [run_newNull env backend hnew]
    simp [hb]

/-- Claim C4 (confirmed): c_example_lstypec calls
libtypec_rs_get_capabilities exactly once, right after construction and
before any per-connector query; the per-connector queries it issues form a
prefix of the fixed sequence fullProgram determined solely by the
capability result (connectors 0, 1, ... in increasing order, eleven
queries per connector in source order), so the protocol sequence is
reproducible from the capability result alone; and every
libtypec_rs_get_pdos call passes the pd_version of that capability
result. -/
theorem claim_C4_protocol_order (env : Env) (backend : Nat)
    (hnew : env.newHandleNull = false) :
    (∃ tr, (c_example_lstypec env backend).2 =
        Event.newSession (if backend ≠ 0 then backend else OsBackends_Sysfs) ::
          Event.getCapabilities :: tr ∧
        Event.getCapabilities ∉ tr) ∧
    (∃ rest, queriesOf (c_example_lstypec env backend).2 ++ rest =
        (fullProgram env.caps).map Prod.snd) ∧
    (∀ q ∈ queriesOf (c_example_lstypec env backend).2,
      ∀ v, q.pdVersionOf = some v → v = env.caps.pd_version) := by
  have hver : ∀ q ∈ queriesOf (c_example_lstypec env backend).2,
      ∀ v, q.pdVersionOf = some v → v = env.caps.pd_version :=
    fun q hq => (mem_fullProgram_snd (queries_run_sub env backend hq)).2
  by_cases hcap : env.capRet = 0
  · have hnos := exec_no_session env (fullProgram env.caps) ⟨0, 0, 0⟩
    refine ⟨?_, ?_, hver⟩
    · rw [run_main env backend hnew hcap]
      rcases hx : exec env (fullProgram env.caps) ⟨0, 0, 0⟩ with ⟨st1, tr⟩ | ⟨r, tr⟩ | tr
      · refine ⟨tr ++ [Event.destroySession], rfl, ?_⟩
        intro hmem
        rcases List.mem_append.1 hmem with h | h
        · have := hnos _ (by rw [hx]; exact h)
          simp [Event.isSessionEvent] at this
        · simp at h
      · refine ⟨tr, rfl, ?_⟩
        intro hmem
        have := hnos _ (by rw [hx]; exact hmem)
        simp [Event.isSessionEvent] at this
      · refine ⟨tr, rfl, ?_⟩
        intro hmem
        have := hnos _ (by rw [hx]; exact hmem)
        simp [Event.isSessionEvent] at this
    · obtain ⟨rest, hrest⟩ := exec_queries_sub env (fullProgram env.caps) ⟨0, 0, 0⟩
      exact ⟨rest, by rw [queriesOf_run env backend hnew hcap]; exact hrest⟩
  · refine ⟨?_, ?_, hver⟩
    · rw [run_capFail env backend hnew hcap]
      exact ⟨[], rfl, by simp⟩
    · rw [run_capFail env backend hnew hcap]
      exact ⟨(fullProgram env.caps).map Prod.snd, by simp [queriesOf]⟩

/-- Witness for claim C4 at the all-success oracle. -/
theorem claim_C4_witness :
    (∃ tr, (c_example_lstypec envAll0 0).2 =
        Event.newSession (if (0 : Nat) ≠ 0 then 0 else OsBackends_Sysfs) ::
          Event.getCapabilities :: tr ∧
        Event.getCapabilities ∉ tr) ∧
    (∃ rest, queriesOf (c_example_lstypec envAll0 0).2 ++ rest =
        (fullProgram envAll0.caps).map Prod.snd) ∧
    (∀ q ∈ queriesOf (c_example_lstypec envAll0 0).2,
      ∀ v, q.pdVersionOf = some v → v = envAll0.caps.pd_version) :=
  claim_C4_protocol_order envAll0 0 rfl

/-- Claim C5 (confirmed, library side modelled from the spec): provided the
library populates the PDO out-pointer with a non-null handle whenever
libtypec_rs_get_pdos returns 0 (spec section 4.6; on failure the embedding
leaves the out-variables unchanged, modelling "the output handle stays
unset"), the driver's assert(out_pdos) never fails, and every
libtypec_rs_destroy_pdos call the driver makes receives the non-null
pointer, count and size written by a get_pdos query that returned 0 -
never the handle of a failed query. -/
theorem claim_C5_populated_on_success (env : Env) (backend : Nat)
    (hpop : ∀ q, env.ret q = 0 → env.outPtr q ≠ 0) :
    (c_example_lstypec env backend).1 ≠ Outcome.assertFailed ∧
    (∀ a b c, Event.destroyPdos a b c ∈ (c_example_lstypec env backend).2 →
      ∃ q, Event.query q ∈ (c_example_lstypec env backend).2 ∧
        q.isGetPdos = true ∧ env.ret q = 0 ∧ a = env.outPtr q ∧
        b = env.outN q ∧ c = env.outSz q ∧ a ≠ 0) := by
  cases hnew : env.newHandleNull
  · by_cases hcap : env.capRet = 0
    · constructor
      · rw [run_main env backend hnew hcap]
        rcases hx : exec env (fullProgram env.caps) ⟨0, 0, 0⟩ with ⟨st1, tr⟩ | ⟨r, tr⟩ | tr
        · simp
        · simp
        · exact absurd hx (exec_no_assert env hpop _ _ _)
      · intro a b c hmem
        rw [run_main env backend hnew hcap] at hmem ⊢
        rcases hx : exec env (fullProgram env.caps) ⟨0, 0, 0⟩ with ⟨st1, tr⟩ | ⟨r, tr⟩ | tr <;>
          rw [hx] at hmem <;>
          simp only [List.cons_append, List.nil_append, List.mem_cons, List.mem_append,
            List.mem_singleton] at hmem
        · rcases hmem with h | h | h | h
          · exact absurd h (by simp)
          · exact absurd h (by simp)
          · obtain ⟨q, hq, hgp, h0, ha, hb, hcs, hz⟩ :=
              exec_destroyPdos_mem env (fullProgram env.caps) ⟨0, 0, 0⟩ a b c
                (fullProgram_patOk env.caps) (by rw [hx]; exact h)
            rw [hx] at hq
            simp only [StepRes.trace] at hq
            exact ⟨q, by simp [hq], hgp, h0, ha, hb, hcs, hz⟩
          · exact absurd h (by simp)
        · rcases hmem with h | h | h
          · exact absurd h (by simp)
          · exact absurd h (by simp)
          · obtain ⟨q, hq, hgp, h0, ha, hb, hcs, hz⟩ :=
              exec_destroyPdos_mem env (fullProgram env.caps) ⟨0, 0, 0⟩ a b c
                (fullProgram_patOk env.caps) (by rw [hx]; exact h)
            rw [hx] at hq
            simp only [StepRes.trace] at hq
            exact ⟨q, by simp [hq], hgp, h0, ha, hb, hcs, hz⟩
        · exact absurd hx (exec_no_assert env hpop _ _ _)
    · rw [run_capFail env backend hnew hcap]
      refine ⟨by simp, ?_⟩
      intro a b c hmem
      simp at hmem
  · rw [run_newNull env backend hnew]
    refine ⟨by simp, ?_⟩
    intro a b c hmem
    simp at hmem

/-- Witness for claim C5 at the all-success oracle (every written pointer
is 1, so the population hypothesis holds). -/
theorem claim_C5_witness :
    (c_example_lstypec envAll0 0).1 ≠ Outcome.assertFailed ∧
    (∀ a b c, Event.destroyPdos a b c ∈ (c_example_lstypec envAll0 0).2 →
      ∃ q, Event.query q ∈ (c_example_lstypec envAll0 0).2 ∧
        q.isGetPdos = true ∧ envAll0.ret q = 0 ∧ a = envAll0.outPtr q ∧
        b = envAll0.outN q ∧ c = envAll0.outSz q ∧ a ≠ 0) :=
  claim_C5_populated_on_success envAll0 0 (fun _ _ => Nat.one_ne_zero)

/-- Claim C6 (confirmed, library side modelled from the spec): provided the
library writes a non-null pointer whenever a variable-length query returns
0, the libtypec_rs_destroy_pdos calls of c_example_lstypec are exactly, in
order, one per successful libtypec_rs_get_pdos query, each receiving the
pointer, element count and total size that query produced - and likewise
libtypec_rs_destroy_alternate_modes for the successful
libtypec_rs_get_alternate_modes queries. -/
theorem claim_C6_destroy_triples (env : Env) (backend : Nat)
    (hpop : ∀ q, env.ret q = 0 → env.outPtr q ≠ 0) :
    (c_example_lstypec env backend).2.filterMap Event.pdosDestroyArg =
      ((queriesOf (c_example_lstypec env backend).2).filter
        (fun x => x.isGetPdos && decide (env.ret x = 0))).map
        (fun x => (env.outPtr x, env.outN x, env.outSz x)) ∧
    (c_example_lstypec env backend).2.filterMap Event.altDestroyArg =
      ((queriesOf (c_example_lstypec env backend).2).filter
        (fun x => x.isGetAltModes && decide (env.ret x = 0))).map
        (fun x => (env.outPtr x, env.outN x, env.outSz x)) := by
  cases hnew : env.newHandleNull
  · by_cases hcap : env.capRet = 0
    · constructor
      · rw [filterMap_run env backend hnew hcap Event.pdosDestroyArg
            (fun _ => rfl) rfl rfl,
          queriesOf_run env backend hnew hcap]
        exact exec_pdos_destroys_exact env hpop (fullProgram env.caps) ⟨0, 0, 0⟩
          (fullProgram_patOk env.caps)
      · rw [filterMap_run env backend hnew hcap Event.altDestroyArg
            (fun _ => rfl) rfl rfl,
          queriesOf_run env backend hnew hcap]
        exact exec_alt_destroys_exact env hpop (fullProgram env.caps) ⟨0, 0, 0⟩
          (fullProgram_patOk env.caps)
    · rw [run_capFail env backend hnew hcap]
      constructor <;>
        simp [queriesOf, List.filterMap_cons, Event.pdosDestroyArg, Event.altDestroyArg]
  · rw [run_newNull env backend hnew]
    constructor <;>
      simp [queriesOf, List.filterMap_cons, Event.pdosDestroyArg, Event.altDestroyArg]

/-- Witness for claim C6 at the all-success oracle. -/
theorem claim_C6_witness :
    (c_example_lstypec envAll0 0).2.filterMap Event.pdosDestroyArg =
      ((queriesOf (c_example_lstypec envAll0 0).2).filter
        (fun x => x.isGetPdos && decide (envAll0.ret x = 0))).map
        (fun x => (envAll0.outPtr x, envAll0.outN x, envAll0.outSz x)) ∧
    (c_example_lstypec envAll0 0).2.filterMap Event.altDestroyArg =
      ((queriesOf (c_example_lstypec envAll0 0).2).filter
        (fun x => x.isGetAltModes && decide (envAll0.ret x = 0))).map
        (fun x => (envAll0.outPtr x, envAll0.outN x, envAll0.outSz x)) :=
  claim_C6_destroy_triples envAll0 0 (fun _ _ => Nat.one_ne_zero)

/-- Claim C7 (code_bug): on an oracle where every call succeeds (one
connector, both get_pd_message queries return 0), the driver destroys the
SOP-prime DiscoverIdentity message (payload 10) but never calls
libtypec_rs_destroy_pd_message for the successfully returned SOP message
(payload 20): the success branch of lstypec.c lines 140-141 is empty, so
the message is leaked, contradicting the claim and the one-destroy-per-
result contract of the spec. -/
theorem claim_C7_sop_message_leak :
    (c_example_lstypec envAll0 0).1 = Outcome.ret 0 ∧
    Query.getPdMessage 0 PdMessageRecipient.Sop PdMessageResponseType.DiscoverIdentity ∈
      queriesOf (c_example_lstypec envAll0 0).2 ∧
    envAll0.ret (Query.getPdMessage 0 PdMessageRecipient.Sop
      PdMessageResponseType.DiscoverIdentity) = 0 ∧
    Event.destroyPdMessage (envAll0.msgVal (Query.getPdMessage 0 PdMessageRecipient.Sop
      PdMessageResponseType.DiscoverIdentity)) ∉ (c_example_lstypec envAll0 0).2 ∧
    Event.destroyPdMessage (envAll0.msgVal (Query.getPdMessage 0 PdMessageRecipient.SopPrime
      PdMessageResponseType.DiscoverIdentity)) ∈ (c_example_lstypec envAll0 0).2 := by
  decide

/-- Claim C10 (confirmed, construction contract modelled from the spec):
assuming libtypec_rs_new yields a non-null handle when it returns 0,
c_example_lstypec calls libtypec_rs_destroy on the session if and only if
it returns 0; every early error return (null handle, failed capability
query, fatal per-connector error) exits without destroying the session. -/
theorem claim_C10_session_destroy (env : Env) (backend : Nat)
    (hnew0 : env.newRet = 0 → env.newHandleNull = false) :
    ((c_example_lstypec env backend).1 = Outcome.ret 0 ↔
      Event.destroySession ∈ (c_example_lstypec env backend).2) := by
  cases hnew : env.newHandleNull
  · by_cases hcap : env.capRet = 0
    · rw [run_main env backend hnew hcap]
      rcases hx : exec env (fullProgram env.caps) ⟨0, 0, 0⟩ with ⟨st1, tr⟩ | ⟨r, tr⟩ | tr
      · simp
      · have hr : r ≠ 0 := exec_fatal_code env (fullProgram env.caps) ⟨0, 0, 0⟩ r tr hx
        constructor
        · intro h
          exact absurd (Outcome.ret.inj h) hr
        · intro h
          exfalso
          have h2 : Event.destroySession ∈ tr := by simpa using h
          have := exec_no_session env (fullProgram env.caps) ⟨0, 0, 0⟩ _
            (by rw [hx]; exact h2)
          simp [Event.isSessionEvent] at this
      · constructor
        · intro h
          exact absurd h (by simp)
        · intro h
          exfalso
          have h2 : Event.destroySession ∈ tr := by simpa using h
          have := exec_no_session env (fullProgram env.caps) ⟨0, 0, 0⟩ _
            (by rw [hx]; exact h2)
          simp [Event.isSessionEvent] at this
    · rw [run_capFail env backend hnew hcap]
      constructor
      · intro h
        exact absurd (Outcome.ret.inj h) hcap
      · intro h
        simp at h
  · rw [run_newNull env backend hnew]
    have hr0 : env.newRet ≠ 0 := by
      intro h
      rw [hnew0 h] at hnew
      exact Bool.noConfusion hnew
    constructor
    · intro h
      exact absurd (Outcome.ret.inj h) hr0
    · intro h
      simp at h

/-- Witness for claim C10 at the all-success oracle: the driver returns 0
and the trace contains the session destroy. -/
theorem claim_C10_witness :
    ((c_example_lstypec envAll0 0).1 = Outcome.ret 0 ↔
      Event.destroySession ∈ (c_example_lstypec envAll0 0).2) :=
  claim_C10_session_destroy envAll0 0 (fun _ => rfl)
